import Mathlib

/-!
Shallow embedding of `action_plugins/docker-compose.py`: an Ansible action
plugin that reconciles a role's docker-compose YAML file, docker images and
docker containers against a declared desired state.

The plugin's interaction with the target host happens exclusively through
`execute_module`, which runs one remote module ("primitive operation") and
feeds its raw result through `handle_module_result`.  We model the remote
host as an environment `env : Nat → RawResult` giving the raw result of the
i-th primitive invocation, and instrument the run with a trace of the
primitive invocations (module name plus the arguments the plugin passes),
in order.
-/

namespace DockerCompose

/-- One entry of the compose data: `container["image"]` is read when present
(`if "image" in container`), everything else is opaque pass-through. -/
structure ContainerDef where
  image : Option String
  deriving DecidableEq

/-- `data`: mapping from container name to its definition; modelled as an
association list in dict-iteration order. -/
abbrev ComposeData := List (String × ContainerDef)

/-- The merged option bag restricted to the four recognized keys, as built by
`set_options` from `parse_kv(module_args)` updated with `complex_args`:
`parsed_args.get(key)` yields `None` for a missing key. -/
structure Args where
  role : Option String
  data : Option ComposeData
  images : Option String
  containers : Option String
  deriving DecidableEq

def ABSENT : String := "absent"

def LATEST : String := "latest"

def PRESENT : String := "present"

def RESTARTED : String := "restarted"

def STARTED : String := "started"

/-- `self.docker_compose_directory = "/etc/docker-compose/{}".format(self.role)` -/
def docker_compose_directory (role : String) : String :=
  "/etc/docker-compose/" ++ role

/-- `self.docker_compose_file = "{}/docker-compose.yml".format(self.docker_compose_directory)` -/
def docker_compose_file (role : String) : String :=
  docker_compose_directory role ++ "/docker-compose.yml"

/-- `self.images`: `[container["image"] for container in self.data.values() if "image" in container]` -/
def imageList (a : Args) : List String :=
  (a.data.getD []).filterMap fun kv => kv.2.image

/-- Raw result of one remote module invocation, as inspected by
`handle_module_result` (`changed`, `failed`, `msg`, `stderr` keys, each
possibly absent) and by `has_docker_compose_file`
(`result["stat"]["exists"]`). -/
structure RawResult where
  changed : Option Bool
  failed : Option Bool
  msg : Option String
  stderr : Option String
  statExists : Bool
  deriving DecidableEq

/-- `changed = result.get("changed", False)` -/
def normChanged (r : RawResult) : Bool := r.changed.getD false

/-- `failed = result.get("failed", False)` -/
def normFailed (r : RawResult) : Bool := r.failed.getD false

/-- `msg = result.get("msg", result.get("stderr", ""))` -/
def normMsg (r : RawResult) : String := r.msg.getD (r.stderr.getD (""))

/-- A primitive operation invocation: the remote module and the arguments the
plugin passes to it. -/
inductive Prim where
  | fileState (path : String) (state : String)
  | fileStat (path : String)
  | fileTemplate (dest : String) (data : ComposeData)
  | dockerCompose (path : String) (state : String) (force : Bool)
  | dockerImages (images : List String) (state : String)
  deriving DecidableEq

/-- Mutable run state: the number of primitive invocations performed so far
(index into the environment), the accumulated `self.changed` flag, and the
trace of invocations. -/
structure St where
  idx : Nat
  changed : Bool
  trace : List Prim
  deriving DecidableEq

/-- `execute_module` followed by `handle_module_result`: invoke the primitive,
record it, OR the result's `changed` into `self.changed`, then raise
`ModuleError(msg)` if the result reports failure.  The error carries the
state at raise time (the `changed` update happens before the raise). -/
def call (env : Nat → RawResult) (p : Prim) (s : St) :
    Except (String × St) (RawResult × St) :=
  let r := env s.idx
  let s' : St := ⟨s.idx + 1, s.changed || normChanged r, s.trace ++ [p]⟩
  if normFailed r then .error (normMsg r, s') else .ok (r, s')

/-- Sequencing a `call` with its continuation (exception propagation). -/
def andThen (x : Except (String × St) (RawResult × St))
    (f : RawResult → St → Except (String × St) St) : Except (String × St) St :=
  match x with
  | .error e => .error e
  | .ok (r, s) => f r s

/-- Sequencing two statement blocks (exception propagation). -/
def seqSt (x : Except (String × St) St) (f : St → Except (String × St) St) :
    Except (String × St) St :=
  match x with
  | .error e => .error e
  | .ok s => f s

/-- `if self.images_state in (PRESENT, LATEST): self.pull_images()` —
`pull_images` runs the `docker-images` module with `state=<images_state>` and
`images=<self.images>`. -/
def pullPhase (a : Args) (env : Nat → RawResult) (s : St) :
    Except (String × St) St :=
  if a.images = some PRESENT ∨ a.images = some LATEST then
    andThen (call env (.dockerImages (imageList a) (a.images.getD (""))) s)
      fun _ s => .ok s
  else .ok s

/-- The `containers_state in (ABSENT,)` branch: `has_docker_compose_file`
(a `stat` call returning `result["stat"]["exists"]`); if it exists,
`remove_docker_compose_containers` (`docker-compose` with
`state=absent force=true`) then `remove_docker_compose_file` (`file` with
`state=absent`); finally `remove_docker_compose_configuration_directory`. -/
def containersAbsentPhase (a : Args) (env : Nat → RawResult) (s : St) :
    Except (String × St) St :=
  let role := a.role.getD ("")
  andThen (call env (.fileStat (docker_compose_file role)) s) fun r s =>
    seqSt
      (if r.statExists then
        andThen (call env (.dockerCompose (docker_compose_file role) ABSENT true) s)
          fun _ s =>
        andThen (call env (.fileState (docker_compose_file role) ABSENT) s)
          fun _ s => .ok s
      else .ok s)
      fun s =>
        andThen (call env (.fileState (docker_compose_directory role) ABSENT) s)
          fun _ s => .ok s

/-- The `containers_state in (PRESENT, STARTED, RESTARTED)` branch:
`create_docker_compose_configuration_directory` (`file` with
`state=directory`), `create_docker_compose_file` (the `template` module
rendering `data` to the compose file), and, for `STARTED`/`RESTARTED`,
`create_docker_compose_containers` (`docker-compose` with `state=started`,
`force=true` iff `containers_state in (RESTARTED,)`). -/
def containersPresentPhase (a : Args) (env : Nat → RawResult) (s : St) :
    Except (String × St) St :=
  let role := a.role.getD ("")
  andThen (call env (.fileState (docker_compose_directory role) "directory") s)
    fun _ s =>
  andThen (call env (.fileTemplate (docker_compose_file role) (a.data.getD [])) s)
    fun _ s =>
  if a.containers = some STARTED ∨ a.containers = some RESTARTED then
    andThen
      (call env
        (.dockerCompose (docker_compose_file role) STARTED
          (a.containers = some RESTARTED)) s)
      fun _ s => .ok s
  else .ok s

/-- Dispatch between the two container branches; any other value of
`containers_state` (including `None`) silently does nothing. -/
def containersPhase (a : Args) (env : Nat → RawResult) (s : St) :
    Except (String × St) St :=
  if a.containers = some ABSENT then containersAbsentPhase a env s
  else if a.containers = some PRESENT ∨ a.containers = some STARTED ∨
      a.containers = some RESTARTED then
    containersPresentPhase a env s
  else .ok s

/-- `if self.images_state in (ABSENT,): self.remove_images()` — same
`docker-images` module invocation, now with `state=absent`. -/
def removeImagesPhase (a : Args) (env : Nat → RawResult) (s : St) :
    Except (String × St) St :=
  if a.images = some ABSENT then
    andThen (call env (.dockerImages (imageList a) (a.images.getD (""))) s)
      fun _ s => .ok s
  else .ok s

/-- Body of the `try:` block of `run` after validation: pull images first,
then the containers branch, then remove images last. -/
def reconcile (a : Args) (env : Nat → RawResult) (s : St) :
    Except (String × St) St :=
  seqSt (pullPhase a env s) fun s =>
  seqSt (containersPhase a env s) fun s =>
  removeImagesPhase a env s

/-- `set_options`: after merging, keep the four recognized keys and raise
`ModuleError("role is required")` when `role` is falsy (absent or empty) and
`ModuleError("data is required")` when `data` is falsy (absent or empty). -/
def set_options (a : Args) : Except String Args :=
  if a.role.getD ("") = "" then .error "role is required"
  else if a.data.getD [] = [] then .error "data is required"
  else .ok a

/-- The aggregated result record `dict(failed=..., changed=..., msg=...)`. -/
structure Outcome where
  failed : Bool
  changed : Bool
  msg : String
  deriving DecidableEq

/-- `ActionModule.run`: check-mode short-circuit (`self.changed` is still its
initial `False` there), then validation and reconciliation inside a
`try/except ModuleError` that converts the first raised error into
`failed=True` with the accumulated `changed`.  Returns the outcome together
with the trace of primitive invocations. -/
def runPlugin (checkMode : Bool) (a : Args) (env : Nat → RawResult) :
    Outcome × List Prim :=
  if checkMode then (⟨false, false, "ok"⟩, [])
  else
    match set_options a with
    | .error e => (⟨true, false, e⟩, [])
    | .ok a =>
      match reconcile a env ⟨0, false, []⟩ with
      | .error (m, s) => (⟨true, s.changed, m⟩, s.trace)
      | .ok s => (⟨false, s.changed, "ok"⟩, s.trace)


/-! ## Concrete sample inputs (used to instantiate the theorems below) -/

/-- A raw result with every optional key absent and `stat.exists = true`. -/
def rawOk : RawResult := ⟨none, none, none, none, true⟩

/-- A raw result with every optional key absent and `stat.exists = false`. -/
def rawNoFile : RawResult := ⟨none, none, none, none, false⟩

/-- A failing raw result that reports no change. -/
def rawFailClean : RawResult := ⟨none, some true, some ("boom"), none, true⟩

/-- A raw result reporting both `changed=True` and `failed=True`. -/
def rawFailChanged : RawResult := ⟨some true, some true, some ("pull failed"), none, true⟩

/-- Merged options with `role` absent. -/
def argsNoRole : Args :=
  ⟨none, some [("nginx", ⟨some ("nginx:latest")⟩)], none, none⟩

/-- Merged options: `role=nginx`, one container with an image,
`images=latest`, `containers=started`. -/
def argsStartedLatest : Args :=
  ⟨some ("nginx"), some [("nginx", ⟨some ("nginx:latest")⟩)],
    some LATEST, some STARTED⟩

/-- Merged options: `images=latest`, `containers=restarted`. -/
def argsRestartedLatest : Args :=
  ⟨some ("nginx"), some [("nginx", ⟨some ("nginx:latest")⟩)],
    some LATEST, some RESTARTED⟩

/-- Merged options: `images=absent`, `containers=absent`. -/
def argsAbsentAbsent : Args :=
  ⟨some ("nginx"), some [("nginx", ⟨some ("nginx:latest")⟩)],
    some ABSENT, some ABSENT⟩

/-- Merged options whose compose data has no `image` key anywhere. -/
def argsNoImage : Args :=
  ⟨some ("web"), some [("web", ⟨none⟩)], some LATEST, some STARTED⟩

/-! ## Basic facts about `call` -/

theorem call_ok (env : Nat → RawResult) (p : Prim) (s : St)
    (hf : normFailed (env s.idx) = false) :
    call env p s =
      .ok (env s.idx,
        ⟨s.idx + 1, s.changed || normChanged (env s.idx), s.trace ++ [p]⟩) := by
  simp [call, hf]

theorem call_err (env : Nat → RawResult) (p : Prim) (s : St)
    (hf : normFailed (env s.idx) = true) :
    call env p s =
      .error (normMsg (env s.idx),
        ⟨s.idx + 1, s.changed || normChanged (env s.idx), s.trace ++ [p]⟩) := by
  simp [call, hf]

/-! ## Run-state invariants

`anyChangedUpTo env n` is the OR of the normalized `changed` reports of the
first `n` primitive results, i.e. the value `self.changed` must hold after
handling them. -/

def anyChangedUpTo (env : Nat → RawResult) : Nat → Bool
  | 0 => false
  | n + 1 => anyChangedUpTo env n || normChanged (env n)

/-- Invariant of a state reached with no failure so far: the trace length
matches the number of results consumed, `changed` is the OR of the consumed
results' `changed` reports, and every consumed result was non-failing. -/
def OkInv (env : Nat → RawResult) (s : St) : Prop :=
  s.trace.length = s.idx ∧ s.changed = anyChangedUpTo env s.idx ∧
    ∀ i, i < s.idx → normFailed (env i) = false

/-- Invariant of the state carried by a raised `ModuleError`: the very last
consumed result failed, every earlier one succeeded, the message is the
failing result's normalized message, and `changed` still accumulates every
consumed result (including the failing one). -/
def ErrInv (env : Nat → RawResult) (m : String) (s : St) : Prop :=
  s.trace.length = s.idx ∧ s.changed = anyChangedUpTo env s.idx ∧
    1 ≤ s.idx ∧ (∀ i, i + 1 < s.idx → normFailed (env i) = false) ∧
    normFailed (env (s.idx - 1)) = true ∧ m = normMsg (env (s.idx - 1))

/-- The two invariants, selected by the outcome of a phase. -/
def PhaseOk (env : Nat → RawResult) (x : Except (String × St) St) : Prop :=
  match x with
  | .ok s => OkInv env s
  | .error (m, s) => ErrInv env m s

theorem OkInv_init (env : Nat → RawResult) : OkInv env ⟨0, false, []⟩ :=
  ⟨rfl, rfl, fun i hi => absurd hi (Nat.not_lt_zero i)⟩

theorem OkInv_step (env : Nat → RawResult) {s : St} (p : Prim)
    (h : OkInv env s) (hf : normFailed (env s.idx) = false) :
    OkInv env ⟨s.idx + 1, s.changed || normChanged (env s.idx), s.trace ++ [p]⟩ := by
  obtain ⟨h1, h2, h3⟩ := h
  refine ⟨by simp [h1], by simp [h2, anyChangedUpTo], fun i hi => ?_⟩
  rcases Nat.lt_succ_iff_lt_or_eq.mp hi with hlt | heq
  · exact h3 i hlt
  · exact heq ▸ hf

theorem ErrInv_step (env : Nat → RawResult) {s : St} (p : Prim)
    (h : OkInv env s) (hf : normFailed (env s.idx) = true) :
    ErrInv env (normMsg (env s.idx))
      ⟨s.idx + 1, s.changed || normChanged (env s.idx), s.trace ++ [p]⟩ := by
  obtain ⟨h1, h2, h3⟩ := h
  exact ⟨by simp [h1], by simp [h2, anyChangedUpTo], Nat.succ_le_succ (Nat.zero_le _),
    fun i hi => h3 i (Nat.lt_of_succ_lt_succ hi), by simpa using hf, by simp⟩

theorem andThen_call_inv (env : Nat → RawResult) (p : Prim) (s : St)
    (f : RawResult → St → Except (String × St) St) (h : OkInv env s)
    (hc : ∀ r s1, OkInv env s1 → PhaseOk env (f r s1)) :
    PhaseOk env (andThen (call env p s) f) := by
  by_cases hf : normFailed (env s.idx)
  · rw [call_err env p s hf]
    exact ErrInv_step env p h hf
  · rw [call_ok env p s (by simpa using hf)]
    exact hc _ _ (OkInv_step env p h (by simpa using hf))

theorem seqSt_inv (env : Nat → RawResult) (x : Except (String × St) St)
    (f : St → Except (String × St) St) (hx : PhaseOk env x)
    (hf : ∀ s, OkInv env s → PhaseOk env (f s)) :
    PhaseOk env (seqSt x f) := by
  match x with
  | .error (m, s) => exact hx
  | .ok s => exact hf s hx

theorem pullPhase_inv (a : Args) (env : Nat → RawResult) (s : St)
    (h : OkInv env s) : PhaseOk env (pullPhase a env s) := by
  unfold pullPhase
  split
  · exact andThen_call_inv env _ s _ h fun r s1 h1 => h1
  · exact h

theorem containersAbsentPhase_inv (a : Args) (env : Nat → RawResult) (s : St)
    (h : OkInv env s) : PhaseOk env (containersAbsentPhase a env s) := by
  unfold containersAbsentPhase
  refine andThen_call_inv env _ s _ h fun r s1 h1 => ?_
  refine seqSt_inv env _ _ ?_ fun s2 h2 => ?_
  · split
    · exact andThen_call_inv env _ s1 _ h1 fun r2 s2 h2 =>
        andThen_call_inv env _ s2 _ h2 fun r3 s3 h3 => h3
    · exact h1
  · exact andThen_call_inv env _ s2 _ h2 fun r3 s3 h3 => h3

theorem containersPresentPhase_inv (a : Args) (env : Nat → RawResult) (s : St)
    (h : OkInv env s) : PhaseOk env (containersPresentPhase a env s) := by
  unfold containersPresentPhase
  refine andThen_call_inv env _ s _ h fun r s1 h1 => ?_
  refine andThen_call_inv env _ s1 _ h1 fun r2 s2 h2 => ?_
  split
  · exact andThen_call_inv env _ s2 _ h2 fun r3 s3 h3 => h3
  · exact h2

theorem containersPhase_inv (a : Args) (env : Nat → RawResult) (s : St)
    (h : OkInv env s) : PhaseOk env (containersPhase a env s) := by
  unfold containersPhase
  split
  · exact containersAbsentPhase_inv a env s h
  · split
    · exact containersPresentPhase_inv a env s h
    · exact h

theorem removeImagesPhase_inv (a : Args) (env : Nat → RawResult) (s : St)
    (h : OkInv env s) : PhaseOk env (removeImagesPhase a env s) := by
  unfold removeImagesPhase
  split
  · exact andThen_call_inv env _ s _ h fun r s1 h1 => h1
  · exact h

theorem reconcile_inv (a : Args) (env : Nat → RawResult) (s : St)
    (h : OkInv env s) : PhaseOk env (reconcile a env s) := by
  unfold reconcile
  exact seqSt_inv env _ _ (pullPhase_inv a env s h) fun s1 h1 =>
    seqSt_inv env _ _ (containersPhase_inv a env s1 h1) fun s2 h2 =>
      removeImagesPhase_inv a env s2 h2

/-! ## Run-level characterization -/

/-- In a non-check run, the outcome's `changed` is the OR of every handled
result's `changed`, and either no handled result failed (success), or
validation failed with an empty trace, or the last handled result is the
first failing one and supplies the outcome's message. -/
theorem runPlugin_split (a : Args) (env : Nat → RawResult) :
    (runPlugin false a env).1.changed =
      anyChangedUpTo env (runPlugin false a env).2.length ∧
    (((runPlugin false a env).1.failed = false ∧
        ∀ i, i < (runPlugin false a env).2.length → normFailed (env i) = false) ∨
      ((runPlugin false a env).1.failed = true ∧
        (runPlugin false a env).2.length = 0) ∨
      ((runPlugin false a env).1.failed = true ∧
        1 ≤ (runPlugin false a env).2.length ∧
        normFailed (env ((runPlugin false a env).2.length - 1)) = true ∧
        (∀ i, i + 1 < (runPlugin false a env).2.length → normFailed (env i) = false) ∧
        (runPlugin false a env).1.msg =
          normMsg (env ((runPlugin false a env).2.length - 1)))) := by
  cases hso : set_options a with
  | error e =>
    simp [runPlugin, hso, anyChangedUpTo]
  | ok b =>
    have hinv := reconcile_inv b env ⟨0, false, []⟩ (OkInv_init env)
    cases hrec : reconcile b env ⟨0, false, []⟩ with
    | ok s =>
      rw [hrec] at hinv
      obtain ⟨h1, h2, h3⟩ := hinv
      simp only [runPlugin, if_neg (Bool.false_ne_true), hso, hrec]
      exact ⟨by simp [h2, h1], Or.inl ⟨trivial, fun i hi => h3 i (h1 ▸ hi)⟩⟩
    | error e =>
      obtain ⟨m, s⟩ := e
      rw [hrec] at hinv
      obtain ⟨h1, h2, h3, h4, h5, h6⟩ := hinv
      simp only [runPlugin, if_neg (Bool.false_ne_true), hso, hrec]
      refine ⟨by simp [h2, h1], Or.inr (Or.inr ⟨trivial, h1 ▸ h3, ?_, fun i hi => h4 i (h1 ▸ hi), ?_⟩)⟩
      · rw [h1]; exact h5
      · rw [h1]; exact h6

/-- C1: with `checkMode = true`, the plugin returns immediately with
`failed=false, changed=false, msg="ok"` and invokes no primitive operation,
regardless of the supplied arguments. -/
theorem check_mode_short_circuit (a : Args) (env : Nat → RawResult) :
    runPlugin true a env = (⟨false, false, "ok"⟩, []) := rfl

/-- C2 counterexample: a check-mode invocation with `role` absent returns
`failed=false, msg="ok"`, not the claimed `failed=true` with message
`"role is required"` — the check-mode short-circuit runs before validation. -/
theorem role_missing_check_mode_counterexample :
    (runPlugin true argsNoRole (fun _ => rawOk)).1.failed = false ∧
    (runPlugin true argsNoRole (fun _ => rawOk)).1.msg = "ok" := ⟨rfl, rfl⟩

/-- C2 (amended): for every invocation with `checkMode=false` whose merged
arguments have an empty or absent `role`, the outcome is `failed=true`,
`changed=false`, message exactly `"role is required"`, and no primitive
operation is invoked. -/
theorem role_missing_fails (a : Args) (env : Nat → RawResult)
    (h : a.role.getD ("") = "") :
    runPlugin false a env = (⟨true, false, "role is required"⟩, []) := by
  simp [runPlugin, set_options, h]

/-- Witness for `role_missing_fails`. -/
theorem role_missing_fails_witness :
    runPlugin false argsNoRole (fun _ => rawOk) =
      (⟨true, false, "role is required"⟩, []) :=
  role_missing_fails argsNoRole (fun _ => rawOk) rfl

/-- C7: the outcome's `changed` flag equals the OR of the `changed` reports
of all handled primitive results (and hence is monotone: it starts false, is
set once some handled result reports a change, and is never reset). -/
theorem changed_is_or_of_handled (checkMode : Bool) (a : Args) (env : Nat → RawResult) :
    (runPlugin checkMode a env).1.changed =
      anyChangedUpTo env (runPlugin checkMode a env).2.length := by
  cases checkMode with
  | true => rfl
  | false => exact (runPlugin_split a env).1

/-- C6: in a non-check run, the first primitive result with normalized
`failed=true` aborts the run: it is the last invocation of the trace, the
outcome is `failed=true` with that result's normalized message, and the
outcome's `changed` is the OR of the `changed` reports of all handled
results up to and including the failing one. -/
theorem first_failure_aborts (a : Args) (env : Nat → RawResult)
    (hfail : ∃ i, i < (runPlugin false a env).2.length ∧ normFailed (env i) = true) :
    (runPlugin false a env).1.failed = true ∧
    normFailed (env ((runPlugin false a env).2.length - 1)) = true ∧
    (∀ i, i + 1 < (runPlugin false a env).2.length → normFailed (env i) = false) ∧
    (runPlugin false a env).1.msg =
      normMsg (env ((runPlugin false a env).2.length - 1)) ∧
    (runPlugin false a env).1.changed =
      anyChangedUpTo env (runPlugin false a env).2.length := by
  obtain ⟨hch, hcases⟩ := runPlugin_split a env
  obtain ⟨i, hi, hif⟩ := hfail
  rcases hcases with ⟨_, hok⟩ | ⟨_, hlen⟩ | ⟨hf, _, hlast, hbefore, hmsg⟩
  · rw [hok i hi] at hif
    exact absurd hif (by simp)
  · rw [hlen] at hi
    exact absurd hi (Nat.not_lt_zero i)
  · exact ⟨hf, hlast, hbefore, hmsg, hch⟩

/-- C8: result normalization defaults `changed` and `failed` to false when
the key is absent, and the message is the explicit `msg` field when present,
else the `stderr` field when present, else the empty string. -/
theorem normalize_defaults (c f : Option Bool) (m e : Option String)
    (x : Bool) (y z : String) (b : Bool) :
    normChanged ⟨none, f, m, e, b⟩ = false ∧
    normChanged ⟨some x, f, m, e, b⟩ = x ∧
    normFailed ⟨c, none, m, e, b⟩ = false ∧
    normFailed ⟨c, some x, m, e, b⟩ = x ∧
    normMsg ⟨c, f, some y, e, b⟩ = y ∧
    normMsg ⟨c, f, none, some z, b⟩ = z ∧
    normMsg ⟨c, f, none, none, b⟩ = "" :=
  ⟨rfl, rfl, rfl, rfl, rfl, rfl, rfl⟩

/-- C9: when the first (and only) invoked primitive reports both
`changed=true` and `failed=true`, the change is accumulated before the
failure aborts the run, so the outcome has `failed=true` and `changed=true`. -/
theorem changed_and_failed_both_reported (a : Args) (env : Nat → RawResult)
    (hr : a.role.getD ("") ≠ "") (hd : a.data.getD [] ≠ [])
    (hi : a.images = some PRESENT ∨ a.images = some LATEST)
    (hch : normChanged (env 0) = true) (hf : normFailed (env 0) = true) :
    runPlugin false a env =
      (⟨true, true, normMsg (env 0)⟩,
        [Prim.dockerImages (imageList a) (a.images.getD (""))]) := by
  rcases hi with hi | hi <;>
    simp [runPlugin, set_options, hr, hd, reconcile, seqSt, pullPhase, hi,
      andThen, call, hch, hf, PRESENT, LATEST]

/-- Witness for `changed_and_failed_both_reported`. -/
theorem changed_and_failed_both_reported_witness :
    runPlugin false argsStartedLatest (fun _ => rawFailChanged) =
      (⟨true, true, "pull failed"⟩, [Prim.dockerImages ["nginx:latest"] ("latest")]) := by
  have h := changed_and_failed_both_reported argsStartedLatest
    (fun _ => rawFailChanged) (by decide) (by decide) (Or.inr rfl) rfl rfl
  simpa [argsStartedLatest, imageList, normMsg, rawFailChanged, LATEST] using h

/-! ## Trace shape machinery -/

/-- The state carried by a phase result, error or not. -/
def resSt : Except (String × St) St → St
  | .ok s => s
  | .error (_, s) => s

theorem set_options_ok (a : Args) (hr : a.role.getD ("") ≠ "")
    (hd : a.data.getD [] ≠ []) : set_options a = .ok a := by
  simp [set_options, hr, hd]

/-- With valid options, the returned trace is the trace of the final state of
`reconcile`, whether it raised or not. -/
theorem runPlugin_trace (a : Args) (env : Nat → RawResult)
    (hr : a.role.getD ("") ≠ "") (hd : a.data.getD [] ≠ []) :
    (runPlugin false a env).2 = (resSt (reconcile a env ⟨0, false, []⟩)).trace := by
  simp only [runPlugin, if_neg Bool.false_ne_true, set_options_ok a hr hd]
  cases hrec : reconcile a env ⟨0, false, []⟩ with
  | ok s => rfl
  | error e => obtain ⟨m, s⟩ := e; rfl

/-- A phase satisfying the run-state invariant cannot raise when no
environment result reports failure. -/
theorem phase_ok_of_noFail (env : Nat → RawResult) (x : Except (String × St) St)
    (hinv : PhaseOk env x) (hnf : ∀ i, normFailed (env i) = false) :
    ∃ s, x = .ok s := by
  match x with
  | .ok s => exact ⟨s, rfl⟩
  | .error (m, s) =>
    obtain ⟨_, _, _, _, h5, _⟩ := hinv
    rw [hnf (s.idx - 1)] at h5
    exact absurd h5 (by simp)

/-- A `call` followed by a continuation appends the called primitive and then
whatever the continuation appends. -/
theorem andThen_call_sub (env : Nat → RawResult) (p : Prim) (s : St)
    (f : RawResult → St → Except (String × St) St) (P : Prim → Prop) (hp : P p)
    (hf : ∀ r s1, ∃ t, (resSt (f r s1)).trace = s1.trace ++ t ∧ ∀ q ∈ t, P q) :
    ∃ t, (resSt (andThen (call env p s) f)).trace = s.trace ++ t ∧ ∀ q ∈ t, P q := by
  by_cases hfl : normFailed (env s.idx)
  · rw [call_err env p s hfl]
    exact ⟨[p], rfl, by simpa using hp⟩
  · rw [call_ok env p s (by simpa using hfl)]
    simp only [andThen]
    obtain ⟨t, ht, hq⟩ := hf (env s.idx)
      ⟨s.idx + 1, s.changed || normChanged (env s.idx), s.trace ++ [p]⟩
    refine ⟨[p] ++ t, by rw [ht]; simp, fun q hq2 => ?_⟩
    rcases List.mem_append.mp hq2 with h | h
    · exact (List.mem_singleton.mp h) ▸ hp
    · exact hq q h

/-- Sequencing two blocks appends what each block appends. -/
theorem seqSt_sub (s : St) (x : Except (String × St) St)
    (f : St → Except (String × St) St) (P : Prim → Prop)
    (hx : ∃ t, (resSt x).trace = s.trace ++ t ∧ ∀ q ∈ t, P q)
    (hf : ∀ s1, ∃ t, (resSt (f s1)).trace = s1.trace ++ t ∧ ∀ q ∈ t, P q) :
    ∃ t, (resSt (seqSt x f)).trace = s.trace ++ t ∧ ∀ q ∈ t, P q := by
  match x with
  | .error (m, s1) => exact hx
  | .ok s1 =>
    obtain ⟨t1, ht1, hq1⟩ := hx
    obtain ⟨t2, ht2, hq2⟩ := hf s1
    refine ⟨t1 ++ t2, ?_, fun q hq => ?_⟩
    · show (resSt (f s1)).trace = s.trace ++ (t1 ++ t2)
      have ht1x : s1.trace = s.trace ++ t1 := ht1
      rw [ht2, ht1x, List.append_assoc]
    · rcases List.mem_append.mp hq with h | h
      · exact hq1 q h
      · exact hq2 q h

/-- A no-op block appends nothing. -/
theorem ok_sub (s : St) (P : Prim → Prop) :
    ∃ t, (resSt (Except.ok (ε := String × St) s)).trace = s.trace ++ t ∧
      ∀ q ∈ t, P q :=
  ⟨[], by simp [resSt], by simp⟩

theorem pullPhase_sub (a : Args) (env : Nat → RawResult) (s : St) :
    ∃ t, (resSt (pullPhase a env s)).trace = s.trace ++ t ∧
      ∀ q ∈ t, q = Prim.dockerImages (imageList a) (a.images.getD ("")) := by
  unfold pullPhase
  split
  · exact andThen_call_sub env _ s _ _ rfl fun r s1 => ok_sub s1 _
  · exact ok_sub s _

theorem removeImagesPhase_sub (a : Args) (env : Nat → RawResult) (s : St) :
    ∃ t, (resSt (removeImagesPhase a env s)).trace = s.trace ++ t ∧
      ∀ q ∈ t, q = Prim.dockerImages (imageList a) (a.images.getD ("")) := by
  unfold removeImagesPhase
  split
  · exact andThen_call_sub env _ s _ _ rfl fun r s1 => ok_sub s1 _
  · exact ok_sub s _

theorem containersAbsentPhase_sub (a : Args) (env : Nat → RawResult) (s : St) :
    ∃ t, (resSt (containersAbsentPhase a env s)).trace = s.trace ++ t ∧
      ∀ q ∈ t,
        q = Prim.fileStat (docker_compose_file (a.role.getD (""))) ∨
        q = Prim.dockerCompose (docker_compose_file (a.role.getD (""))) ABSENT true ∨
        q = Prim.fileState (docker_compose_file (a.role.getD (""))) ABSENT ∨
        q = Prim.fileState (docker_compose_directory (a.role.getD (""))) ABSENT := by
  unfold containersAbsentPhase
  refine andThen_call_sub env _ s _ _ (Or.inl rfl) fun r s1 => ?_
  refine seqSt_sub s1 _ _ _ ?_ fun s2 => ?_
  · split
    · refine andThen_call_sub env _ s1 _ _ (Or.inr (Or.inl rfl)) fun r2 s2 => ?_
      exact andThen_call_sub env _ s2 _ _ (Or.inr (Or.inr (Or.inl rfl)))
        fun r3 s3 => ok_sub s3 _
    · exact ok_sub s1 _
  · exact andThen_call_sub env _ s2 _ _ (Or.inr (Or.inr (Or.inr rfl)))
      fun r3 s3 => ok_sub s3 _

theorem containersPresentPhase_sub (a : Args) (env : Nat → RawResult) (s : St) :
    ∃ t, (resSt (containersPresentPhase a env s)).trace = s.trace ++ t ∧
      ∀ q ∈ t,
        q = Prim.fileState (docker_compose_directory (a.role.getD (""))) "directory" ∨
        q = Prim.fileTemplate (docker_compose_file (a.role.getD (""))) (a.data.getD []) ∨
        q = Prim.dockerCompose (docker_compose_file (a.role.getD (""))) STARTED
              (a.containers = some RESTARTED) := by
  unfold containersPresentPhase
  refine andThen_call_sub env _ s _ _ (Or.inl rfl) fun r s1 => ?_
  refine andThen_call_sub env _ s1 _ _ (Or.inr (Or.inl rfl)) fun r2 s2 => ?_
  split
  · exact andThen_call_sub env _ s2 _ _ (Or.inr (Or.inr rfl)) fun r3 s3 => ok_sub s3 _
  · exact ok_sub s2 _

/-- Every phase only ever appends to the trace. -/
theorem containersPhase_ext (a : Args) (env : Nat → RawResult) (s : St) :
    ∃ t, (resSt (containersPhase a env s)).trace = s.trace ++ t := by
  unfold containersPhase
  split
  · obtain ⟨t, ht, _⟩ := containersAbsentPhase_sub a env s
    exact ⟨t, ht⟩
  · split
    · obtain ⟨t, ht, _⟩ := containersPresentPhase_sub a env s
      exact ⟨t, ht⟩
    · exact ⟨[], by simp [resSt]⟩

theorem seqSt_ok (s : St) (f : St → Except (String × St) St) :
    seqSt (.ok s) f = f s := rfl

theorem seqSt_err (e : String × St) (f : St → Except (String × St) St) :
    seqSt (.error e) f = .error e := rfl

theorem andThen_ok (r : RawResult) (s : St)
    (f : RawResult → St → Except (String × St) St) :
    andThen (.ok (r, s)) f = f r s := rfl

theorem andThen_err (e : String × St)
    (f : RawResult → St → Except (String × St) St) :
    andThen (.error e) f = .error e := rfl

/-- The compose file path strictly extends the directory path. -/
theorem file_ne_directory (role : String) :
    docker_compose_file role ≠ docker_compose_directory role := by
  intro h
  have hlen := congrArg String.length h
  rw [docker_compose_file, String.length_append] at hlen
  have h19 : ("/docker-compose.yml").length = 19 := rfl
  rw [h19] at hlen
  omega

/-- When the image policy requests a pull, the `docker-images` pull is always
the very first primitive invoked (whatever happens afterwards). -/
theorem pull_first (a : Args) (env : Nat → RawResult)
    (hr : a.role.getD ("") ≠ "") (hd : a.data.getD [] ≠ [])
    (hi : a.images = some PRESENT ∨ a.images = some LATEST) :
    (runPlugin false a env).2.head? =
      some (Prim.dockerImages (imageList a) (a.images.getD (""))) := by
  rw [runPlugin_trace a env hr hd]
  unfold reconcile pullPhase
  rw [if_pos hi]
  by_cases h0 : normFailed (env 0) = true
  · rw [call_err env _ ⟨0, false, []⟩ h0]
    simp [andThen, seqSt, resSt]
  · rw [call_ok env _ ⟨0, false, []⟩ (by simpa using h0)]
    simp only [andThen_ok, seqSt_ok]
    have hrest := seqSt_sub
      (⟨0 + 1, false || normChanged (env 0),
        [] ++ [Prim.dockerImages (imageList a) (a.images.getD (""))]⟩ : St)
      (containersPhase a env
        ⟨0 + 1, false || normChanged (env 0),
          [] ++ [Prim.dockerImages (imageList a) (a.images.getD (""))]⟩)
      (fun s => removeImagesPhase a env s) (fun _ => True)
      (by
        obtain ⟨t, ht⟩ := containersPhase_ext a env _
        exact ⟨t, ht, fun q hq => trivial⟩)
      (fun s1 => by
        obtain ⟨t, ht, _⟩ := removeImagesPhase_sub a env s1
        exact ⟨t, ht, fun q hq => trivial⟩)
    obtain ⟨t, ht, _⟩ := hrest
    rw [ht]
    simp

/-- C3: with valid options, `images=latest` and `containers=restarted`, the
image pull is invoked strictly before any `docker-compose` container
primitive, every `docker-compose` container primitive in the run carries
`state=started` and `force=true`, and in a failure-free run the invocation
sequence is exactly pull, directory creation, file templating, container
start. -/
theorem latest_restarted_order (a : Args) (env : Nat → RawResult)
    (hr : a.role.getD ("") ≠ "") (hd : a.data.getD [] ≠ [])
    (hi : a.images = some LATEST) (hc : a.containers = some RESTARTED) :
    (runPlugin false a env).2.head? =
      some (Prim.dockerImages (imageList a) LATEST) ∧
    (∀ p st fo, Prim.dockerCompose p st fo ∈ (runPlugin false a env).2 →
      st = STARTED ∧ fo = true) ∧
    ((∀ i, normFailed (env i) = false) →
      (runPlugin false a env).2 =
        [Prim.dockerImages (imageList a) LATEST,
         Prim.fileState (docker_compose_directory (a.role.getD (""))) "directory",
         Prim.fileTemplate (docker_compose_file (a.role.getD (""))) (a.data.getD []),
         Prim.dockerCompose (docker_compose_file (a.role.getD (""))) STARTED true]) := by
  refine ⟨?_, ?_, ?_⟩
  · have h := pull_first a env hr hd (Or.inr hi)
    rw [hi] at h
    simpa using h
  · intro p st fo hmem
    rw [runPlugin_trace a env hr hd] at hmem
    have hcp : ∀ s1, containersPhase a env s1 = containersPresentPhase a env s1 := by
      intro s1
      unfold containersPhase
      rw [if_neg (by rw [hc]; decide), if_pos (Or.inr (Or.inr hc))]
    have hsub := seqSt_sub (⟨0, false, []⟩ : St) (pullPhase a env ⟨0, false, []⟩)
      (fun s => seqSt (containersPhase a env s) fun s => removeImagesPhase a env s)
      (fun q =>
        q = Prim.dockerImages (imageList a) (a.images.getD ("")) ∨
        q = Prim.fileState (docker_compose_directory (a.role.getD (""))) "directory" ∨
        q = Prim.fileTemplate (docker_compose_file (a.role.getD (""))) (a.data.getD []) ∨
        q = Prim.dockerCompose (docker_compose_file (a.role.getD (""))) STARTED true)
      (by
        obtain ⟨t, ht, hq⟩ := pullPhase_sub a env ⟨0, false, []⟩
        exact ⟨t, ht, fun q h => Or.inl (hq q h)⟩)
      (fun s1 => by
        refine seqSt_sub s1 _ _ _ ?_ fun s2 => ?_
        · rw [hcp s1]
          obtain ⟨t, ht, hq⟩ := containersPresentPhase_sub a env s1
          refine ⟨t, ht, fun q h => ?_⟩
          rcases hq q h with h1 | h1 | h1
          · exact Or.inr (Or.inl h1)
          · exact Or.inr (Or.inr (Or.inl h1))
          · rw [hc] at h1
            have hdec : decide ((some RESTARTED : Option String) = some RESTARTED) = true := by
              decide
            rw [hdec] at h1
            exact Or.inr (Or.inr (Or.inr h1))
        · obtain ⟨t, ht, hq⟩ := removeImagesPhase_sub a env s2
          exact ⟨t, ht, fun q h => Or.inl (hq q h)⟩)
    obtain ⟨t, ht, hq⟩ := hsub
    have hconc : reconcile a env ⟨0, false, []⟩ =
        seqSt (pullPhase a env ⟨0, false, []⟩)
          (fun s => seqSt (containersPhase a env s) fun s => removeImagesPhase a env s) := rfl
    rw [hconc, ht] at hmem
    rcases hq _ (by simpa using hmem) with h1 | h1 | h1 | h1 <;> simp_all
  · intro hnf
    simp [runPlugin, set_options, hr, hd, reconcile, seqSt, pullPhase,
      containersPhase, containersPresentPhase, removeImagesPhase, andThen, call,
      hnf, hi, hc, PRESENT, LATEST, ABSENT, STARTED, RESTARTED]

/-- Witness for `latest_restarted_order`: concrete failure-free run. -/
theorem latest_restarted_order_witness :
    (runPlugin false argsRestartedLatest (fun _ => rawOk)).2 =
      [Prim.dockerImages ["nginx:latest"] LATEST,
       Prim.fileState ("/etc/docker-compose/nginx") "directory",
       Prim.fileTemplate ("/etc/docker-compose/nginx/docker-compose.yml")
         [("nginx", ⟨some ("nginx:latest")⟩)],
       Prim.dockerCompose ("/etc/docker-compose/nginx/docker-compose.yml")
         STARTED true] := by
  have h := (latest_restarted_order argsRestartedLatest (fun _ => rawOk)
    (by decide) (by decide) rfl rfl).2.2 (fun i => rfl)
  exact h

/-- C4: with valid options, `containers=absent` and `images=absent`, in a
failure-free run the whole container-removal sequence (stat, then container
and file removal when the file exists, then directory removal) completes
strictly before the image-removal primitive, which is the final invocation. -/
theorem absent_absent_order (a : Args) (env : Nat → RawResult)
    (hr : a.role.getD ("") ≠ "") (hd : a.data.getD [] ≠ [])
    (hi : a.images = some ABSENT) (hc : a.containers = some ABSENT)
    (hnf : ∀ i, normFailed (env i) = false) :
    (runPlugin false a env).2 =
      (if (env 0).statExists then
        [Prim.fileStat (docker_compose_file (a.role.getD (""))),
         Prim.dockerCompose (docker_compose_file (a.role.getD (""))) ABSENT true,
         Prim.fileState (docker_compose_file (a.role.getD (""))) ABSENT,
         Prim.fileState (docker_compose_directory (a.role.getD (""))) ABSENT,
         Prim.dockerImages (imageList a) ABSENT]
      else
        [Prim.fileStat (docker_compose_file (a.role.getD (""))),
         Prim.fileState (docker_compose_directory (a.role.getD (""))) ABSENT,
         Prim.dockerImages (imageList a) ABSENT]) := by
  by_cases hex : (env 0).statExists <;>
    simp [runPlugin, set_options, hr, hd, reconcile, seqSt, pullPhase,
      containersPhase, containersAbsentPhase, removeImagesPhase, andThen, call,
      hnf, hi, hc, hex, PRESENT, LATEST, ABSENT, STARTED, RESTARTED]

/-- Witness for `absent_absent_order`: concrete run with an existing file. -/
theorem absent_absent_order_witness :
    (runPlugin false argsAbsentAbsent (fun _ => rawOk)).2 =
      [Prim.fileStat ("/etc/docker-compose/nginx/docker-compose.yml"),
       Prim.dockerCompose ("/etc/docker-compose/nginx/docker-compose.yml") ABSENT true,
       Prim.fileState ("/etc/docker-compose/nginx/docker-compose.yml") ABSENT,
       Prim.fileState ("/etc/docker-compose/nginx") ABSENT,
       Prim.dockerImages ["nginx:latest"] ABSENT] := by
  have h := absent_absent_order argsAbsentAbsent (fun _ => rawOk)
    (by decide) (by decide) rfl rfl (fun i => rfl)
  exact h

/-- C5: with valid options and `containers=absent`, when every primitive
succeeds and the stat reports that the compose file does not exist, no
`docker-compose` container primitive and no compose-file removal is ever
invoked, but the directory removal still is. -/
theorem absent_skip_when_no_file (a : Args) (env : Nat → RawResult)
    (hr : a.role.getD ("") ≠ "") (hd : a.data.getD [] ≠ [])
    (hc : a.containers = some ABSENT)
    (hnf : ∀ i, normFailed (env i) = false)
    (hex : ∀ i, (env i).statExists = false) :
    (∀ p st fo, Prim.dockerCompose p st fo ∉ (runPlugin false a env).2) ∧
    Prim.fileState (docker_compose_file (a.role.getD (""))) ABSENT ∉
      (runPlugin false a env).2 ∧
    Prim.fileState (docker_compose_directory (a.role.getD (""))) ABSENT ∈
      (runPlugin false a env).2 := by
  have hnePA : (some PRESENT : Option String) ≠ some ABSENT := by decide
  have hneLA : (some LATEST : Option String) ≠ some ABSENT := by decide
  have hneAP : (some ABSENT : Option String) ≠ some PRESENT := by decide
  have hneAL : (some ABSENT : Option String) ≠ some LATEST := by decide
  by_cases hp : a.images = some PRESENT
  · have hT : (runPlugin false a env).2 =
        [Prim.dockerImages (imageList a) PRESENT,
         Prim.fileStat (docker_compose_file (a.role.getD (""))),
         Prim.fileState (docker_compose_directory (a.role.getD (""))) ABSENT] := by
      simp [runPlugin, set_options, hr, hd, reconcile, seqSt, pullPhase,
        containersPhase, containersAbsentPhase, removeImagesPhase, andThen,
        call, hnf, hex, hp, hc, hnePA]
    rw [hT]
    refine ⟨fun p st fo => by simp, by simp [file_ne_directory], by simp⟩
  · by_cases hl : a.images = some LATEST
    · have hT : (runPlugin false a env).2 =
          [Prim.dockerImages (imageList a) LATEST,
           Prim.fileStat (docker_compose_file (a.role.getD (""))),
           Prim.fileState (docker_compose_directory (a.role.getD (""))) ABSENT] := by
        simp [runPlugin, set_options, hr, hd, reconcile, seqSt, pullPhase,
          containersPhase, containersAbsentPhase, removeImagesPhase, andThen,
          call, hnf, hex, hl, hc, hneLA]
      rw [hT]
      refine ⟨fun p st fo => by simp, by simp [file_ne_directory], by simp⟩
    · by_cases hab : a.images = some ABSENT
      · have hT : (runPlugin false a env).2 =
            [Prim.fileStat (docker_compose_file (a.role.getD (""))),
             Prim.fileState (docker_compose_directory (a.role.getD (""))) ABSENT,
             Prim.dockerImages (imageList a) ABSENT] := by
          simp [runPlugin, set_options, hr, hd, reconcile, seqSt, pullPhase,
            containersPhase, containersAbsentPhase, removeImagesPhase, andThen,
            call, hnf, hex, hab, hc, hneAP, hneAL]
        rw [hT]
        refine ⟨fun p st fo => by simp, by simp [file_ne_directory], by simp⟩
      · have hT : (runPlugin false a env).2 =
            [Prim.fileStat (docker_compose_file (a.role.getD (""))),
             Prim.fileState (docker_compose_directory (a.role.getD (""))) ABSENT] := by
          simp [runPlugin, set_options, hr, hd, reconcile, seqSt, pullPhase,
            containersPhase, containersAbsentPhase, removeImagesPhase, andThen,
            call, hnf, hex, hp, hl, hab, hc]
        rw [hT]
        refine ⟨fun p st fo => by simp, by simp [file_ne_directory], by simp⟩

/-- Witness for `absent_skip_when_no_file`. -/
theorem absent_skip_when_no_file_witness :
    (∀ p st fo, Prim.dockerCompose p st fo ∉
      (runPlugin false argsAbsentAbsent (fun _ => rawNoFile)).2) ∧
    Prim.fileState (docker_compose_file ((argsAbsentAbsent).role.getD (""))) ABSENT ∉
      (runPlugin false argsAbsentAbsent (fun _ => rawNoFile)).2 ∧
    Prim.fileState (docker_compose_directory ((argsAbsentAbsent).role.getD (""))) ABSENT ∈
      (runPlugin false argsAbsentAbsent (fun _ => rawNoFile)).2 :=
  absent_skip_when_no_file argsAbsentAbsent (fun _ => rawNoFile)
    (by decide) (by decide) rfl (fun i => rfl) (fun i => rfl)

/-- Witness for `first_failure_aborts`: the pull (first step) fails cleanly,
so the run aborts with `changed=false` after exactly one invocation. -/
theorem first_failure_aborts_witness :
    (runPlugin false argsStartedLatest (fun _ => rawFailClean)).1.failed = true ∧
    (runPlugin false argsStartedLatest (fun _ => rawFailClean)).1.changed = false ∧
    (runPlugin false argsStartedLatest (fun _ => rawFailClean)).1.msg = "boom" ∧
    (runPlugin false argsStartedLatest (fun _ => rawFailClean)).2.length = 1 := by
  have h := first_failure_aborts argsStartedLatest (fun _ => rawFailClean)
    ⟨0, by decide, rfl⟩
  refine ⟨h.1, ?_, ?_, by decide⟩
  · rw [h.2.2.2.2]; decide
  · rw [h.2.2.2.1]; decide

/-- C10: with valid options and compose data in which no entry has an
`image` field, the image-group primitive is still invoked, with an empty
image list: under `images=present/latest` it is the first invocation, and
under `images=absent` (in a failure-free run) it still occurs. -/
theorem images_empty_still_invoked (a : Args) (env : Nat → RawResult)
    (hr : a.role.getD ("") ≠ "") (hd : a.data.getD [] ≠ [])
    (himg : ∀ kv ∈ a.data.getD [], kv.2.image = (none : Option String)) :
    ((a.images = some PRESENT ∨ a.images = some LATEST) →
      (runPlugin false a env).2.head? =
        some (Prim.dockerImages [] (a.images.getD ("")))) ∧
    (a.images = some ABSENT → (∀ i, normFailed (env i) = false) →
      Prim.dockerImages [] ABSENT ∈ (runPlugin false a env).2) := by
  have hil : imageList a = [] := by
    rw [imageList, List.filterMap_eq_nil_iff]
    exact himg
  constructor
  · intro hi
    have h := pull_first a env hr hd hi
    rw [hil] at h
    exact h
  · intro hab hnf
    rw [runPlugin_trace a env hr hd]
    have hps : pullPhase a env ⟨0, false, []⟩ = .ok ⟨0, false, []⟩ := by
      unfold pullPhase
      rw [if_neg (by rw [hab]; decide)]
    have hred : reconcile a env ⟨0, false, []⟩ =
        seqSt (containersPhase a env ⟨0, false, []⟩)
          (fun s => removeImagesPhase a env s) := by
      unfold reconcile
      rw [hps, seqSt_ok]
    rw [hred]
    obtain ⟨s2, hs2⟩ := phase_ok_of_noFail env _
      (containersPhase_inv a env ⟨0, false, []⟩ (OkInv_init env)) hnf
    rw [hs2, seqSt_ok]
    unfold removeImagesPhase
    rw [if_pos hab, call_ok env _ s2 (hnf s2.idx)]
    rw [andThen_ok]
    rw [hil, hab]
    simp [resSt]

/-- Witness for `images_empty_still_invoked`. -/
theorem images_empty_still_invoked_witness :
    (runPlugin false argsNoImage (fun _ => rawOk)).2.head? =
      some (Prim.dockerImages [] LATEST) := by
  have h := (images_empty_still_invoked argsNoImage (fun _ => rawOk)
    (by decide) (by decide) (by decide)).1 (Or.inr rfl)
  exact h

end DockerCompose
